import Mathlib

/-!
Verification of the indicator-and-signal engine of a crypto trading-signal
dashboard (a single React component, `src/srcApp.jsx`).

Modelling choices:
* Prices and indicator values are exact rationals (`ℚ`).
* A JavaScript numeric result that can also be `null` or `NaN` is modelled
  by `JsVal`; JavaScript relational comparison — which coerces `null` to `0`
  and makes every comparison involving `NaN` false — is modelled by
  `jsLt` / `jsGt` / `jsGe` / `jsLe`.
* `Array.prototype.slice` with negative arguments is modelled by `jsSlice`.
* `Math.sqrt` (used only for the Bollinger standard deviation, whose numeric
  value no claim depends on) is abstracted as a function parameter `sqrtQ`.
* `Date` arithmetic is modelled on milliseconds since the local epoch
  (`Int`); `toTimeString().slice(0,5)` becomes the `(hour, minute)` pair of
  the wall-clock day.
* Display rounding (`toFixed(2)`) is presentation-layer string formatting
  and is not modelled; the record keeps the exact values it would round.
-/

namespace Sinais

/-- The result of a JavaScript numeric computation: a number, `null`, or `NaN`. -/
inductive JsVal where
  | null : JsVal
  | nan : JsVal
  | num : ℚ → JsVal
deriving DecidableEq

/-- JavaScript `ToNumber` on the values this model produces:
`null` coerces to `0`; `NaN` has no rational value. -/
def JsVal.toNum : JsVal → Option ℚ
  | .null => some 0
  | .nan => none
  | .num q => some q

/-- JavaScript `v < c` for a possibly-`null`/`NaN` left operand. -/
def jsLt (v : JsVal) (c : ℚ) : Bool :=
  match v.toNum with
  | some q => decide (q < c)
  | none => false

/-- JavaScript `v > c` for a possibly-`null`/`NaN` left operand. -/
def jsGt (v : JsVal) (c : ℚ) : Bool :=
  match v.toNum with
  | some q => decide (q > c)
  | none => false

/-- JavaScript `v >= c` for a possibly-`null`/`NaN` left operand. -/
def jsGe (v : JsVal) (c : ℚ) : Bool :=
  match v.toNum with
  | some q => decide (q ≥ c)
  | none => false

/-- JavaScript `v <= c` for a possibly-`null`/`NaN` left operand. -/
def jsLe (v : JsVal) (c : ℚ) : Bool :=
  match v.toNum with
  | some q => decide (q ≤ c)
  | none => false

/-- JavaScript `Array.prototype.slice(start, stop)`, with clamping of
negative and out-of-range indices. -/
def jsSlice (l : List ℚ) (start stop : Int) : List ℚ :=
  let len : Int := l.length
  let f : Int := if start < 0 then max (len + start) 0 else min start len
  let t : Int := if stop < 0 then max (len + stop) 0 else min stop len
  (l.drop f.toNat).take (t - f).toNat

/-- `slice` with only a start argument: `stop` defaults to the length. -/
def jsSliceFrom (l : List ℚ) (start : Int) : List ℚ :=
  jsSlice l start l.length

/-- `arr.slice(-1)[0]`, the idiom the source uses for the last element.
The source never applies it to an empty array, so the `headD` default is
never returned there. -/
def lastElem (l : List ℚ) : ℚ :=
  (jsSliceFrom l (-1)).headD 0

/-- Tail of the EMA recursion (`calculateEMA`, loop body for `i > 0`):
extends the sequence over the remaining prices given the previous value. -/
def emaFrom (multiplier prev : ℚ) : List ℚ → List ℚ
  | [] => []
  | price :: rest =>
    let v := price * multiplier + prev * (1 - multiplier)
    v :: emaFrom multiplier v rest

/-- `calculateEMA(prices, period)` (source default `period = 20`): element 0
is the seed `prices[0]`, element `i` is
`price_i * k + ema_{i-1} * (1 - k)` with `k = 2/(period+1)`. -/
def calculateEMA (prices : List ℚ) (period : Nat) : List ℚ :=
  match prices with
  | [] => []
  | p :: rest => p :: emaFrom (2 / ((period : ℚ) + 1)) p rest

/-- `calculateRSI(prices, period)` (source default `period = 14`): `null`
for fewer than `period + 1` prices; otherwise averages the gains and the
losses over the first `period` consecutive deltas.  The source loop runs
`i = 1..period` over `prices[i] - prices[i-1]`; here `i = 0..period-1`
over `prices[i+1] - prices[i]`, the same deltas.  `gains.reduce((a,b)=>a+b)`
is the list sum. -/
def calculateRSI (prices : List ℚ) (period : Nat) : JsVal :=
  if prices.length < period + 1 then .null
  else
    let gains := (List.range period).map fun i =>
      let diff := prices.getD (i + 1) 0 - prices.getD i 0
      if diff > 0 then diff else 0
    let losses := (List.range period).map fun i =>
      let diff := prices.getD (i + 1) 0 - prices.getD i 0
      if diff < 0 then |diff| else 0
    let avgGain := gains.sum / (period : ℚ)
    let avgLoss := losses.sum / (period : ℚ)
    let rs := if avgLoss = 0 then 100 else avgGain / avgLoss
    .num (100 - 100 / (1 + rs))

/-- `calculateMACD(prices)`: the `{line: 0, signal: 0}` sentinel below 26
prices; otherwise the last values of the pointwise `EMA12 - EMA26`
difference (`macdLine`, built by `prices.map((_, i) => ema12[i] - ema26[i])`)
and of its 9-period EMA.  The source's `.slice(-prices.length)` on the two
EMA sequences is kept even though it is the identity. -/
def calculateMACD (prices : List ℚ) : ℚ × ℚ :=
  if prices.length < 26 then (0, 0)
  else
    let ema12 := jsSliceFrom (calculateEMA prices 12) (-(prices.length : Int))
    let ema26 := jsSliceFrom (calculateEMA prices 26) (-(prices.length : Int))
    let macdLine := (List.range prices.length).map fun i => ema12.getD i 0 - ema26.getD i 0
    let signalLine := calculateEMA macdLine 9
    (lastElem macdLine, lastElem signalLine)

/-- `calculateMomentum(prices, period)` (source default `period = 10`):
`null` below `period` prices; otherwise
`prices.slice(-1)[0] / prices.slice(-period-1, -period)[0]`.  When the
series has exactly `period` elements the second slice is empty, its `[0]`
is `undefined`, and the division yields `NaN`. -/
def calculateMomentum (prices : List ℚ) (period : Nat) : JsVal :=
  if prices.length < period then .null
  else
    match (jsSliceFrom prices (-1)).head?,
        (jsSlice prices (-(period : Int) - 1) (-(period : Int))).head? with
    | some lastp, some p => .num (lastp / p)
    | _, _ => .nan

/-- The Bollinger band record (`upper`, `middle`, `lower`, `price`). -/
structure BollingerBands where
  upper : ℚ
  middle : ℚ
  lower : ℚ
  price : ℚ
deriving DecidableEq

/-- `calculateBollingerBands(prices, period, stdDevs)` (source defaults
`20`, `2`): `null` below `period` prices; otherwise mean and population
variance of the trailing `period` prices, with `Math.sqrt` abstracted as
the parameter `sqrtQ`. -/
def calculateBollingerBands (sqrtQ : ℚ → ℚ) (prices : List ℚ) (period : Nat)
    (stdDevs : ℚ) : Option BollingerBands :=
  if prices.length < period then none
  else
    let recentPrices := jsSliceFrom prices (-(period : Int))
    let mean := recentPrices.sum / (recentPrices.length : ℚ)
    let variance := (recentPrices.map fun p => (p - mean) ^ 2).sum / (recentPrices.length : ℚ)
    let stdDev := sqrtQ variance
    some ⟨mean + stdDev * stdDevs, mean, mean - stdDev * stdDevs, lastElem prices⟩

/-- The categorical signal: `COMPRA` (buy), `VENDA` (sell), `NEUTRO`. -/
inductive SignalType where
  | compra : SignalType
  | venda : SignalType
  | neutro : SignalType
deriving DecidableEq

/-- The fixed rationale string for each category. -/
def reasonFor : SignalType → String
  | .compra => "Sinal positivo com forte consenso técnico"
  | .venda => "Sinal negativo com forte consenso técnico"
  | .neutro => "Indicadores estão equilibrados ou contraditórios"

/-- The weighted-vote accumulation of `analyzeAsset` (source lines
113-131), returning `(buyCount, sellCount)`.  The source mutates two
accumulators; since each rule only adds, the per-rule contributions are
collected and summed.  Source constants: `0.5 = 1/2`, `1.5 = 3/2`,
`0.001 = 1/1000`, `1.005 = 201/200`, `0.995 = 199/200`. -/
def counts (rsi : JsVal) (macd : ℚ × ℚ) (momentum : JsVal)
    (bollinger : BollingerBands) (ema lastPrice : ℚ) : ℚ × ℚ :=
  let bs1 : ℚ × ℚ :=
    if jsLt rsi 30 then (2, 0)
    else if jsGt rsi 70 then (0, 2)
    else if jsGe rsi 40 && jsLe rsi 60 then (1/2, 0)
    else (0, 0)
  let bs2 : ℚ × ℚ :=
    if macd.1 > macd.2 ∧ |macd.1 - macd.2| > 1/1000 then (3/2, 0)
    else if macd.1 < macd.2 ∧ |macd.1 - macd.2| > 1/1000 then (0, 3/2)
    else (0, 0)
  let bs3 : ℚ × ℚ :=
    if jsGt momentum (201/200) then (1, 0)
    else if jsLt momentum (199/200) then (0, 1)
    else (0, 0)
  let bs4 : ℚ × ℚ :=
    if bollinger.price < bollinger.lower then (2, 0)
    else if bollinger.price > bollinger.upper then (0, 2)
    else (0, 0)
  let bs5 : ℚ × ℚ :=
    if lastPrice > ema then (1, 0) else (0, 1)
  (bs1.1 + bs2.1 + bs3.1 + bs4.1 + bs5.1, bs1.2 + bs2.2 + bs3.2 + bs4.2 + bs5.2)

/-- Modelled from the spec: "If RSI is absent, the RSI rule contributes
nothing (neither branch fires); same absent-skips-silently policy applies
to any other indicator that could not be computed."  Identical to `counts`
except that a non-numeric RSI or Momentum contributes to neither count. -/
def countsPresent (rsi : JsVal) (macd : ℚ × ℚ) (momentum : JsVal)
    (bollinger : BollingerBands) (ema lastPrice : ℚ) : ℚ × ℚ :=
  let bs1 : ℚ × ℚ :=
    match rsi with
    | .num q =>
      if q < 30 then (2, 0)
      else if q > 70 then (0, 2)
      else if q ≥ 40 ∧ q ≤ 60 then (1/2, 0)
      else (0, 0)
    | _ => (0, 0)
  let bs2 : ℚ × ℚ :=
    if macd.1 > macd.2 ∧ |macd.1 - macd.2| > 1/1000 then (3/2, 0)
    else if macd.1 < macd.2 ∧ |macd.1 - macd.2| > 1/1000 then (0, 3/2)
    else (0, 0)
  let bs3 : ℚ × ℚ :=
    match momentum with
    | .num q =>
      if q > 201/200 then (1, 0)
      else if q < 199/200 then (0, 1)
      else (0, 0)
    | _ => (0, 0)
  let bs4 : ℚ × ℚ :=
    if bollinger.price < bollinger.lower then (2, 0)
    else if bollinger.price > bollinger.upper then (0, 2)
    else (0, 0)
  let bs5 : ℚ × ℚ :=
    if lastPrice > ema then (1, 0) else (0, 1)
  (bs1.1 + bs2.1 + bs3.1 + bs4.1 + bs5.1, bs1.2 + bs2.2 + bs3.2 + bs4.2 + bs5.2)

/-- The decision ternary of `analyzeAsset` (source line 133). -/
def decideSignal (buyCount sellCount : ℚ) : SignalType :=
  if buyCount > sellCount + 1 then .compra
  else if sellCount > buyCount + 1 then .venda
  else .neutro

/-- `Date` arithmetic of `analyzeAsset` (source lines 141-144) on
milliseconds since the local epoch: `setSeconds(0, 0)` truncates to the
minute, `setMinutes(getMinutes() + 1)` adds one minute. -/
def nextMinuteOf (now : Int) : Int := (now - now % 60000) + 60000

/-- `signalTime`: exactly 3 minutes before `nextMinute` (source line 146). -/
def generatedAtOf (now : Int) : Int := nextMinuteOf now - 180000

/-- First protection time: `nextMinute + 60000` (source line 169). -/
def protection1Of (now : Int) : Int := nextMinuteOf now + 60000

/-- Second protection time: `nextMinute + 120000` (source line 170). -/
def protection2Of (now : Int) : Int := nextMinuteOf now + 120000

/-- `formatTime`: `date.toTimeString().slice(0, 5)` gives `"HH:MM"`,
modelled as the `(hour, minute)` pair of the local wall-clock day. -/
def formatTime (t : Int) : Nat × Nat :=
  let msOfDay := (t % 86400000).toNat
  (msOfDay / 3600000, msOfDay % 3600000 / 60000)

/-- The local calendar day an instant falls on (`Int` division pairs with
the nonnegative `%` used in `formatTime`). -/
def dayIndex (t : Int) : Int := (t - t % 86400000) / 86400000

/-- `scheduleNextUpdate` (source lines 197-204): the instant the next
cycle is scheduled for — `minutes = now.getMinutes()`,
`nextMultiple = Math.ceil(minutes / 5) * 5` (for an integer `m ≥ 0` this
is `(m + 4) / 5 * 5` in natural division), then
`nextUpdate.setMinutes(nextMultiple, 0, 0)` on a copy of `now`
(`setMinutes(60, ...)` rolls over into the next hour). -/
def scheduleNextUpdate (now : Int) : Int :=
  let minutes := (now % 3600000).toNat / 60000
  let nextMultiple := (minutes + 4) / 5 * 5
  (now - now % 3600000) + (nextMultiple : Int) * 60000

/-- The per-asset record `analyzeAsset` resolves with.  Indicator values
are kept exact where the source applies `toFixed(2)` display rounding;
formatted times are `(hour, minute)` pairs. -/
structure AssetResult where
  symbol : String
  rsi : JsVal
  macd : ℚ × ℚ
  momentum : JsVal
  ema : ℚ
  bollinger : BollingerBands
  signal : SignalType
  reason : String
  generatedAt : Nat × Nat
  executeAt : Nat × Nat
  protection1 : Nat × Nat
  protection2 : Nat × Nat

/-- `analyzeAsset`, as a function of the fetched price series and the
current instant.  The network fetch is external: on any transport or
shape error it yields `[]` (`fetchKlines`), which falls under the
`length < 20` guard.  The `.getD` default for Bollinger is never taken:
20 prices are exactly the Bollinger period. -/
def analyzeAsset (sqrtQ : ℚ → ℚ) (symbol : String) (prices : List ℚ)
    (now : Int) : Option AssetResult :=
  if prices.length < 20 then none
  else
    let rsi := calculateRSI prices 14
    let macd := calculateMACD prices
    let momentum := calculateMomentum prices 10
    let ema := lastElem (calculateEMA prices 20)
    let bollinger := (calculateBollingerBands sqrtQ prices 20 2).getD ⟨0, 0, 0, 0⟩
    let lastPrice := lastElem prices
    let bs := counts rsi macd momentum bollinger ema lastPrice
    let st := decideSignal bs.1 bs.2
    let nextMinute := nextMinuteOf now
    some ⟨symbol, rsi, macd, momentum, ema, bollinger, st, reasonFor st,
      formatTime (nextMinute - 180000), formatTime nextMinute,
      formatTime (nextMinute + 60000), formatTime (nextMinute + 120000)⟩

/-! ## Helper lemmas -/

/-- Minutes-of-day position of a formatted `(hour, minute)` pair: the order
in which two `"HH:MM"` strings read on a clock. -/
def minuteOfDay (p : Nat × Nat) : Nat := p.1 * 60 + p.2

theorem head?_take_one (xs : List ℚ) : (xs.take 1).head? = xs.head? := by
  cases xs <;> rfl

theorem jsSliceFrom_neg_one (l : List ℚ) (h : l ≠ []) :
    jsSliceFrom l (-1) = (l.drop (l.length - 1)).take 1 := by
  have h1 : 0 < l.length := List.length_pos.mpr h
  simp only [jsSliceFrom, jsSlice, eq_true (show ((-1 : Int) < 0) by decide),
    eq_false (show ¬ ((l.length : Int) < 0) by omega), if_true, if_false]
  have hx : (max ((l.length : Int) + -1) 0).toNat = l.length - 1 := by omega
  have hy : (min (l.length : Int) (l.length : Int) - max ((l.length : Int) + -1) 0).toNat = 1 := by
    omega
  rw [hx, hy]

theorem lastElem_eq (l : List ℚ) : lastElem l = l.getD (l.length - 1) 0 := by
  cases l with
  | nil => rfl
  | cons a as =>
    unfold lastElem
    rw [jsSliceFrom_neg_one _ (by simp), List.headD_eq_head?_getD, head?_take_one,
      List.head?_drop, ← List.getD_eq_getElem?_getD]

theorem emaFrom_length (k prev : ℚ) (l : List ℚ) : (emaFrom k prev l).length = l.length := by
  induction l generalizing prev with
  | nil => rfl
  | cons p rest ih => simp [emaFrom, ih]

theorem calculateEMA_length (prices : List ℚ) (period : Nat) :
    (calculateEMA prices period).length = prices.length := by
  cases prices with
  | nil => rfl
  | cons p rest => simp [calculateEMA, emaFrom_length]

theorem jsSliceFrom_neg_ge (l : List ℚ) (n : Nat) (h : l.length ≤ n) :
    jsSliceFrom l (-(n : Int)) = l := by
  cases l with
  | nil =>
    simp only [jsSliceFrom, jsSlice]
    split_ifs <;> simp
  | cons a as =>
    have h1 : 0 < (a :: as).length := by simp
    simp only [jsSliceFrom, jsSlice, eq_true (show (-(n : Int) < 0) by omega),
      eq_false (show ¬ (((a :: as).length : Int) < 0) by omega), if_true, if_false]
    have hx : (max (((a :: as).length : Int) + -(n : Int)) 0).toNat = 0 := by omega
    have hy : (min ((a :: as).length : Int) ((a :: as).length : Int) -
        max (((a :: as).length : Int) + -(n : Int)) 0).toNat = (a :: as).length := by
      omega
    rw [hx, hy]
    simp

theorem jsSlice_window_empty (l : List ℚ) (p : Nat) (h : l.length ≤ p) :
    jsSlice l (-(p : Int) - 1) (-(p : Int)) = [] := by
  simp only [jsSlice]
  have hy : ((if -(p : Int) < 0 then max ((l.length : Int) + -(p : Int)) 0
      else min (-(p : Int)) (l.length : Int)) -
      (if -(p : Int) - 1 < 0 then max ((l.length : Int) + (-(p : Int) - 1)) 0
      else min (-(p : Int) - 1) (l.length : Int))).toNat = 0 := by
    split_ifs <;> omega
  rw [hy]
  simp

theorem jsSlice_window_head (l : List ℚ) (p : Nat) (hp : 0 < p) (h : p + 1 ≤ l.length) :
    (jsSlice l (-(p : Int) - 1) (-(p : Int))).head? = some (l.getD (l.length - p - 1) 0) := by
  simp only [jsSlice, eq_true (show (-(p : Int) - 1 < 0) by omega),
    eq_true (show (-(p : Int) < 0) by omega), if_true]
  have hx : (max ((l.length : Int) + (-(p : Int) - 1)) 0).toNat = l.length - p - 1 := by omega
  have hy : (max ((l.length : Int) + -(p : Int)) 0 -
      max ((l.length : Int) + (-(p : Int) - 1)) 0).toNat = 1 := by omega
  rw [hx, hy, head?_take_one, List.head?_drop,
    List.getElem?_eq_getElem (show l.length - p - 1 < l.length by omega)]
  rw [List.getD_eq_getElem?_getD, List.getElem?_eq_getElem (show l.length - p - 1 < l.length by omega)]
  rfl

theorem range_map_sum (n : Nat) (f : Nat → ℚ) :
    ((List.range n).map f).sum = ∑ i in Finset.range n, f i := by
  induction n with
  | zero => rfl
  | succ m ih => rw [List.range_succ, Finset.sum_range_succ, List.map_append, List.sum_append, ih]; simp

/-- Evaluation of `calculateMomentum` on a series long enough for the
backward reference to stay inside the series. -/
theorem calculateMomentum_eval (l : List ℚ) (h : 11 ≤ l.length) :
    calculateMomentum l 10 = JsVal.num (l.getD (l.length - 1) 0 / l.getD (l.length - 11) 0) := by
  have hne : l ≠ [] := by
    cases l with
    | nil => simp at h
    | cons a as => simp
  unfold calculateMomentum
  rw [if_neg (by omega)]
  rw [jsSliceFrom_neg_one l hne, head?_take_one, List.head?_drop,
    List.getElem?_eq_getElem (show l.length - 1 < l.length by omega)]
  rw [jsSlice_window_head l 10 (by omega) (by omega)]
  rw [show l.length - 10 - 1 = l.length - 11 by omega]
  simp only []
  rw [List.getD_eq_getElem?_getD l (l.length - 1),
    List.getElem?_eq_getElem (show l.length - 1 < l.length by omega)]
  rfl

/-! ## Claim theorems -/

/-- C3: for every reference instant `now`, `executeAt` (the `nextMinute`
instant) is the least minute boundary strictly after `now` — obtained by
truncating `now` to the minute and adding exactly one minute, also when
`now` is already on a boundary — `generatedAt = executeAt - 3min`,
`protection1 = executeAt + 1min`, `protection2 = executeAt + 2min`, and
`executeAt` has zero seconds. -/
theorem C3_timestamp_alignment (now : Int) :
    nextMinuteOf now % 60000 = 0
    ∧ now < nextMinuteOf now
    ∧ (∀ m : Int, m % 60000 = 0 → now < m → nextMinuteOf now ≤ m)
    ∧ generatedAtOf now = nextMinuteOf now - 180000
    ∧ protection1Of now = nextMinuteOf now + 60000
    ∧ protection2Of now = nextMinuteOf now + 120000
    ∧ (now % 60000 = 0 → nextMinuteOf now = now + 60000) := by
  unfold nextMinuteOf generatedAtOf protection1Of protection2Of
  refine ⟨by omega, by omega, ?_, rfl, rfl, rfl, by omega⟩
  intro m h1 h2
  omega

/-- C3 witness: the alignment theorem evaluated at the concrete instants
`123456` (mid-minute) and `180000` (exactly on a boundary). -/
theorem C3_witness :
    nextMinuteOf 123456 % 60000 = 0
    ∧ (123456 : Int) < nextMinuteOf 123456
    ∧ nextMinuteOf 123456 ≤ 180000
    ∧ nextMinuteOf 180000 = 180000 + 60000 :=
  ⟨(C3_timestamp_alignment 123456).1, (C3_timestamp_alignment 123456).2.1,
    (C3_timestamp_alignment 123456).2.2.1 180000 (by decide) (by decide),
    (C3_timestamp_alignment 180000).2.2.2.2.2.2 (by decide)⟩

/-- C5 counterexample: at the instant `630000` (minute 10, second 30 of the
local epoch) the scheduler computes `600000` (the mark of minute 10), which
is not strictly in the future — the claim asserts a strictly positive
scheduling delay at every instant, including minutes divisible by 5. -/
theorem C5_counterexample :
    scheduleNextUpdate 630000 = 600000 ∧ ¬ ((630000 : Int) < scheduleNextUpdate 630000) := by
  constructor
  · decide
  · decide

/-- C5 (amended): the computed instant is always a wall-clock 5-minute grid
mark; it is strictly in the future (and at most 5 minutes ahead) exactly
when the current minute is not a multiple of 5; when the current minute is
a multiple of 5 the scheduler returns the current minute's own mark — `now`
truncated to the minute — which is not in the future (delay `≤ 0`). -/
theorem C5_schedule_grid (now : Int) :
    scheduleNextUpdate now % 300000 = 0
    ∧ ((now % 3600000).toNat / 60000 % 5 ≠ 0 →
        now < scheduleNextUpdate now ∧ scheduleNextUpdate now ≤ now + 300000)
    ∧ ((now % 3600000).toNat / 60000 % 5 = 0 →
        scheduleNextUpdate now = now - now % 60000 ∧ scheduleNextUpdate now ≤ now) := by
  simp only [scheduleNextUpdate]
  refine ⟨by omega, fun h => ⟨by omega, by omega⟩, fun h => ⟨by omega, by omega⟩⟩

/-- C5 witness: the amended schedule theorem evaluated at `180002`
(minute 3): the next cycle lands strictly in the future on a grid mark. -/
theorem C5_witness :
    scheduleNextUpdate 180002 % 300000 = 0
    ∧ ((180002 : Int) < scheduleNextUpdate 180002
        ∧ scheduleNextUpdate 180002 ≤ 180002 + 300000) :=
  ⟨(C5_schedule_grid 180002).1, (C5_schedule_grid 180002).2.1 (by decide)⟩

/-- C8: an asset whose retrieved series has fewer than 20 prices — the
empty series of a failed retrieval included — produces no result at all
(no partial indicator bundle), for every current instant and every
`Math.sqrt` realization. -/
theorem C8_insufficient_series (sqrtQ : ℚ → ℚ) (symbol : String) (prices : List ℚ)
    (now : Int) (h : prices.length < 20) :
    analyzeAsset sqrtQ symbol prices now = none := by
  unfold analyzeAsset
  rw [if_pos h]

/-- C8 witness: the empty series of a failed retrieval, and a 19-price
series, both yield no result. -/
theorem C8_witness :
    analyzeAsset (fun q => q) "BTC" [] 0 = none
    ∧ analyzeAsset (fun q => q) "XRP" (List.replicate 19 1) 630000 = none :=
  ⟨C8_insufficient_series (fun q => q) "BTC" [] 0 (by decide),
    C8_insufficient_series (fun q => q) "XRP" (List.replicate 19 1) 630000 (by decide)⟩

/-- C10: the output timestamps are hour:minute of the local wall-clock
day, so `generatedAt` is the time-of-day of `executeAt - 3min` taken
modulo 24 hours; whenever `now` lies before 00:02:00 of its day, the
`generatedAt` instant belongs to the previous calendar day and its
formatted clock time reads later than the formatted `executeAt`. -/
theorem C10_format_wraparound (now : Int) :
    formatTime (generatedAtOf now) =
      (((nextMinuteOf now - 180000) % 86400000).toNat / 3600000,
        ((nextMinuteOf now - 180000) % 86400000).toNat % 3600000 / 60000)
    ∧ (now % 86400000 < 120000 →
        dayIndex (generatedAtOf now) < dayIndex (nextMinuteOf now)
        ∧ minuteOfDay (formatTime (nextMinuteOf now)) <
            minuteOfDay (formatTime (generatedAtOf now))) := by
  simp only [formatTime, generatedAtOf, nextMinuteOf, dayIndex, minuteOfDay]
  refine ⟨trivial, fun h => ⟨by omega, by omega⟩⟩

/-- C10 witness: at `now = 30000` (00:00:30 of day 0) the signal is
generated at 23:58 of the previous day while executing at 00:01. -/
theorem C10_witness :
    dayIndex (generatedAtOf 30000) < dayIndex (nextMinuteOf 30000)
    ∧ minuteOfDay (formatTime (nextMinuteOf 30000)) <
        minuteOfDay (formatTime (generatedAtOf 30000)) :=
  (C10_format_wraparound 30000).2 (by decide)

/-- C1: for every indicator bundle the aggregator evaluates, the signal is
`COMPRA` exactly when `buyCount > sellCount + 1`, `VENDA` exactly when
`sellCount > buyCount + 1`, and `NEUTRO` otherwise, where the counts are
the sums of the fixed weighted votes of `counts`; and the worked example —
RSI 25, MACD line above signal by more than 0.001, Momentum 1.01, price
below the lower band, price above the EMA — yields counts (7.5, 0) and a
`COMPRA` signal. -/
theorem C1_signal_decision :
    (∀ (rsi : JsVal) (macd : ℚ × ℚ) (momentum : JsVal) (bollinger : BollingerBands)
        (ema lastPrice : ℚ) (b s : ℚ),
      counts rsi macd momentum bollinger ema lastPrice = (b, s) →
      (decideSignal b s = SignalType.compra ↔ s + 1 < b)
      ∧ (decideSignal b s = SignalType.venda ↔ b + 1 < s)
      ∧ (decideSignal b s = SignalType.neutro ↔ (b ≤ s + 1 ∧ s ≤ b + 1)))
    ∧ counts (JsVal.num 25) (1, 0) (JsVal.num (101/100)) ⟨10, 5, 2, 1⟩ (1/2) 1 = (15/2, 0)
    ∧ decideSignal (15/2) 0 = SignalType.compra := by
  refine ⟨?_, ?_, ?_⟩
  · intro rsi macd momentum bollinger ema lastPrice b s hbs
    clear hbs
    unfold decideSignal
    rcases lt_or_le (s + 1) b with h1 | h1
    · have h2 : ¬ (b + 1 < s) := by linarith
      rw [if_pos (show b > s + 1 from h1)]
      refine ⟨⟨fun _ => h1, fun _ => rfl⟩, ⟨fun hc => absurd hc (by simp), fun hc => absurd hc h2⟩,
        ⟨fun hc => absurd hc (by simp), fun hc => absurd h1 (not_lt.mpr hc.1)⟩⟩
    · rw [if_neg (show ¬ (b > s + 1) from not_lt.mpr h1)]
      rcases lt_or_le (b + 1) s with h2 | h2
      · rw [if_pos (show s > b + 1 from h2)]
        refine ⟨⟨fun hc => absurd hc (by simp), fun hc => absurd hc (not_lt.mpr h1)⟩,
          ⟨fun _ => h2, fun _ => rfl⟩,
          ⟨fun hc => absurd hc (by simp), fun hc => absurd h2 (not_lt.mpr hc.2)⟩⟩
      · rw [if_neg (show ¬ (s > b + 1) from not_lt.mpr h2)]
        refine ⟨⟨fun hc => absurd hc (by simp), fun hc => absurd hc (not_lt.mpr h1)⟩,
          ⟨fun hc => absurd hc (by simp), fun hc => absurd hc (not_lt.mpr h2)⟩,
          ⟨fun _ => ⟨h1, h2⟩, fun _ => rfl⟩⟩
  · simp only [counts, jsLt, jsGt, jsGe, jsLe, JsVal.toNum, Bool.and_eq_true, decide_eq_true_eq]
    norm_num
  · norm_num [decideSignal]

/-- C1 witness: the decision theorem applied to the worked example bundle. -/
theorem C1_witness :
    decideSignal (15/2 : ℚ) 0 = SignalType.compra ↔ (0 : ℚ) + 1 < 15/2 :=
  (C1_signal_decision.1 (JsVal.num 25) (1, 0) (JsVal.num (101/100)) ⟨10, 5, 2, 1⟩ (1/2) 1
    (15/2) 0 C1_signal_decision.2.1).1

/-- C6 counterexample: a bundle with an absent (`null`) RSI, neutral MACD
and Momentum, in-band Bollinger and price above the EMA: the aggregator
computes `buyCount = 3` — JavaScript coerces `null` to `0`, so `null < 30`
fires the RSI buy branch for `+2` — while the counts from the present
indicators alone are `buyCount = 1`. -/
theorem C6_counterexample :
    counts JsVal.null (0, 0) (JsVal.num 1) ⟨1, 1, 1, 1⟩ 0 1 = (3, 0)
    ∧ countsPresent JsVal.null (0, 0) (JsVal.num 1) ⟨1, 1, 1, 1⟩ 0 1 = (1, 0)
    ∧ ((3 : ℚ), (0 : ℚ)) ≠ ((1 : ℚ), (0 : ℚ)) := by
  refine ⟨?_, ?_, ?_⟩
  · simp only [counts, jsLt, jsGt, jsGe, jsLe, JsVal.toNum, Bool.and_eq_true, decide_eq_true_eq]
    norm_num
  · unfold countsPresent
    norm_num
  · simp

/-- C6 (amended): the aggregator does not skip an absent indicator — it
coerces `null` to `0`, so an absent RSI or Momentum votes exactly like the
value `0` (for RSI the `< 30` buy branch, for Momentum the `< 0.995` sell
branch); the absent case however never reaches the aggregator, because
every bundle `analyzeAsset` evaluates comes from a series of at least 20
prices, for which RSI, Momentum and Bollinger are all present. -/
theorem C6_absent_coerces_to_zero :
    (∀ (macd : ℚ × ℚ) (momentum : JsVal) (bollinger : BollingerBands) (ema lastPrice : ℚ),
      counts JsVal.null macd momentum bollinger ema lastPrice =
        counts (JsVal.num 0) macd momentum bollinger ema lastPrice)
    ∧ (∀ (rsi : JsVal) (macd : ℚ × ℚ) (bollinger : BollingerBands) (ema lastPrice : ℚ),
      counts rsi macd JsVal.null bollinger ema lastPrice =
        counts rsi macd (JsVal.num 0) bollinger ema lastPrice)
    ∧ (∀ prices : List ℚ, 20 ≤ prices.length →
        calculateRSI prices 14 ≠ JsVal.null
        ∧ calculateMomentum prices 10 ≠ JsVal.null
        ∧ calculateMomentum prices 10 ≠ JsVal.nan
        ∧ ∀ sqrtQ : ℚ → ℚ, calculateBollingerBands sqrtQ prices 20 2 ≠ none) := by
  refine ⟨fun _ _ _ _ _ => rfl, fun _ _ _ _ _ => rfl, fun prices h => ⟨?_, ?_, ?_, ?_⟩⟩
  · unfold calculateRSI
    rw [if_neg (by omega)]
    exact fun hc => JsVal.noConfusion hc
  · rw [calculateMomentum_eval prices (by omega)]
    exact fun hc => JsVal.noConfusion hc
  · rw [calculateMomentum_eval prices (by omega)]
    exact fun hc => JsVal.noConfusion hc
  · intro sqrtQ
    unfold calculateBollingerBands
    rw [if_neg (by omega)]
    exact fun hc => Option.noConfusion hc

/-- C6 witness: `null` votes like `0` on a concrete bundle, and on a
concrete 20-price series every indicator is present. -/
theorem C6_witness :
    counts JsVal.null (1, 0) (JsVal.num 2) ⟨4, 3, 2, 5⟩ 1 2 =
      counts (JsVal.num 0) (1, 0) (JsVal.num 2) ⟨4, 3, 2, 5⟩ 1 2
    ∧ calculateRSI (List.replicate 20 1) 14 ≠ JsVal.null
    ∧ calculateMomentum (List.replicate 20 1) 10 ≠ JsVal.nan :=
  ⟨C6_absent_coerces_to_zero.1 (1, 0) (JsVal.num 2) ⟨4, 3, 2, 5⟩ 1 2,
    (C6_absent_coerces_to_zero.2.2 (List.replicate 20 1) (by decide)).1,
    (C6_absent_coerces_to_zero.2.2 (List.replicate 20 1) (by decide)).2.2.1⟩

theorem gains_sum_nonneg (prices : List ℚ) :
    0 ≤ ((List.range 14).map fun i =>
      if prices.getD (i + 1) 0 - prices.getD i 0 > 0
      then prices.getD (i + 1) 0 - prices.getD i 0 else 0).sum :=
  List.sum_nonneg fun x hx => by
    obtain ⟨i, _, rfl⟩ := List.mem_map.mp hx
    split_ifs with h
    · linarith
    · exact le_refl 0

theorem losses_sum_nonneg (prices : List ℚ) :
    0 ≤ ((List.range 14).map fun i =>
      if prices.getD (i + 1) 0 - prices.getD i 0 < 0
      then |prices.getD (i + 1) 0 - prices.getD i 0| else 0).sum :=
  List.sum_nonneg fun x hx => by
    obtain ⟨i, _, rfl⟩ := List.mem_map.mp hx
    split_ifs with h
    · exact abs_nonneg _
    · exact le_refl 0

theorem rsi_value_bounds (G L c : ℚ) (hG : 0 ≤ G) (hL : 0 ≤ L) (hc : 0 < c) :
    0 ≤ 100 - 100 / (1 + if L / c = 0 then 100 else G / c / (L / c))
    ∧ 100 - 100 / (1 + if L / c = 0 then 100 else G / c / (L / c)) < 100 := by
  set rs := (if L / c = 0 then (100 : ℚ) else G / c / (L / c)) with hrs
  have h0 : 0 ≤ rs := by
    rw [hrs]
    split_ifs with h
    · norm_num
    · exact div_nonneg (div_nonneg hG hc.le) (div_nonneg hL hc.le)
  have h1 : (0 : ℚ) < 1 + rs := by linarith
  have h2 : 100 / (1 + rs) ≤ 100 := div_le_self (by norm_num) (by linarith)
  have h3 : 0 < 100 / (1 + rs) := div_pos (by norm_num) h1
  constructor <;> linarith

/-- Evaluation of `calculateRSI` on the 15-price series whose first delta
is a huge gain and whose second delta is a unit loss: the average loss is
positive, so the `rs = avgGain/avgLoss` branch is taken. -/
theorem rsi_bigGain_eval :
    calculateRSI [0, 1000000, 999999, 999999, 999999, 999999, 999999, 999999, 999999,
      999999, 999999, 999999, 999999, 999999, 999999] 14 = JsVal.num (100000000 / 1000001) := by
  norm_num [calculateRSI, List.range_succ]

/-- C2: RSI is absent below 15 prices; with at least 15 prices it averages
gains and losses over the first 14 consecutive deltas, takes
`RS = avgGain/avgLoss` (`RS = 100` when `avgLoss = 0`) and returns
`100 - 100/(1+RS)`; on a strictly increasing series of at least 15 prices
the loss branch is empty, giving exactly `100 - 100/101 = 10000/101 ≈ 99.01`,
within `0.001` of `99.01` and different from `100`. -/
theorem C2_rsi_first_window (prices : List ℚ) :
    (prices.length < 15 → calculateRSI prices 14 = JsVal.null)
    ∧ (15 ≤ prices.length →
        calculateRSI prices 14 = JsVal.num (100 - 100 / (1 +
          (if (∑ i in Finset.range 14, max (prices.getD i 0 - prices.getD (i + 1) 0) 0) / 14 = 0
            then 100
            else ((∑ i in Finset.range 14, max (prices.getD (i + 1) 0 - prices.getD i 0) 0) / 14) /
              ((∑ i in Finset.range 14, max (prices.getD i 0 - prices.getD (i + 1) 0) 0) / 14)))))
    ∧ ((∀ i : Nat, i + 1 < prices.length → prices.getD i 0 < prices.getD (i + 1) 0) →
        15 ≤ prices.length →
        calculateRSI prices 14 = JsVal.num (10000 / 101)
        ∧ |(10000 : ℚ) / 101 - 9901 / 100| < 1 / 1000
        ∧ (10000 : ℚ) / 101 ≠ 100) := by
  have key : 15 ≤ prices.length →
      calculateRSI prices 14 = JsVal.num (100 - 100 / (1 +
        (if (∑ i in Finset.range 14, max (prices.getD i 0 - prices.getD (i + 1) 0) 0) / 14 = 0
          then 100
          else ((∑ i in Finset.range 14, max (prices.getD (i + 1) 0 - prices.getD i 0) 0) / 14) /
            ((∑ i in Finset.range 14, max (prices.getD i 0 - prices.getD (i + 1) 0) 0) / 14)))) := by
    intro h
    simp only [calculateRSI, Nat.cast_ofNat]
    rw [if_neg (by omega)]
    have hg : ((List.range 14).map fun i =>
        if prices.getD (i + 1) 0 - prices.getD i 0 > 0
        then prices.getD (i + 1) 0 - prices.getD i 0 else 0).sum =
        ∑ i in Finset.range 14, max (prices.getD (i + 1) 0 - prices.getD i 0) 0 := by
      rw [range_map_sum]
      refine Finset.sum_congr rfl fun i _ => ?_
      rcases lt_or_le 0 (prices.getD (i + 1) 0 - prices.getD i 0) with hd | hd
      · rw [if_pos hd, max_eq_left hd.le]
      · rw [if_neg (not_lt.mpr hd), max_eq_right hd]
    have hl : ((List.range 14).map fun i =>
        if prices.getD (i + 1) 0 - prices.getD i 0 < 0
        then |prices.getD (i + 1) 0 - prices.getD i 0| else 0).sum =
        ∑ i in Finset.range 14, max (prices.getD i 0 - prices.getD (i + 1) 0) 0 := by
      rw [range_map_sum]
      refine Finset.sum_congr rfl fun i _ => ?_
      rcases lt_or_le (prices.getD (i + 1) 0 - prices.getD i 0) 0 with hd | hd
      · rw [if_pos hd, abs_of_neg hd, max_eq_left (by linarith)]
        ring
      · rw [if_neg (not_lt.mpr hd), max_eq_right (by linarith)]
    rw [hg, hl]
  refine ⟨fun h => ?_, key, fun hmono h => ?_⟩
  · simp only [calculateRSI]
    rw [if_pos (by omega)]
  · have hz : (∑ i in Finset.range 14, max (prices.getD i 0 - prices.getD (i + 1) 0) 0) = 0 :=
      Finset.sum_eq_zero fun i hi => by
        have h14 : i < 14 := Finset.mem_range.mp hi
        have hmi := hmono i (by omega)
        rw [max_eq_right (by linarith)]
    rw [key h, hz]
    refine ⟨?_, by rw [abs_lt]; constructor <;> norm_num, by norm_num⟩
    norm_num

/-- C2 witness: a 3-price series yields no RSI; the strictly increasing
series `[1..15]` yields exactly `10000/101`. -/
theorem C2_witness :
    calculateRSI [1, 2, 3] 14 = JsVal.null
    ∧ calculateRSI [1, 2, 3, 4, 5, 6, 7, 8, 9, 10, 11, 12, 13, 14, 15] 14
        = JsVal.num (10000 / 101) := by
  constructor
  · exact (C2_rsi_first_window [1, 2, 3]).1 (by norm_num)
  · refine ((C2_rsi_first_window _).2.2 ?_ (by norm_num)).1
    intro i hi
    have h15 : i + 1 < 15 := by simpa using hi
    have h14 : i < 14 := by omega
    interval_cases i <;> norm_num

/-- C9 counterexample: on the series with one huge gain and one unit loss
the RSI is `100 - 100/1000001 ≈ 99.9999`, strictly above the claimed
maximum `100 - 100/101 ≈ 99.0099`, and its average loss is not zero. -/
theorem C9_counterexample :
    calculateRSI [0, 1000000, 999999, 999999, 999999, 999999, 999999, 999999, 999999,
      999999, 999999, 999999, 999999, 999999, 999999] 14 = JsVal.num (100000000 / 1000001)
    ∧ (10000 : ℚ) / 101 < 100000000 / 1000001 :=
  ⟨rsi_bigGain_eval, by norm_num⟩

/-- C9 (amended): with at least 15 finite prices the RSI value is always in
`[0, 100)`; but `100 - 100/101` is not its maximum — series with a positive
average loss can exceed it (approaching, never reaching, 100). -/
theorem C9_rsi_range :
    (∀ prices : List ℚ, 15 ≤ prices.length →
      ∃ q : ℚ, calculateRSI prices 14 = JsVal.num q ∧ 0 ≤ q ∧ q < 100)
    ∧ (∃ (prices : List ℚ) (q : ℚ), 15 ≤ prices.length
        ∧ calculateRSI prices 14 = JsVal.num q ∧ 10000 / 101 < q) := by
  constructor
  · intro prices h
    simp only [calculateRSI]
    rw [if_neg (by omega)]
    exact ⟨_, rfl,
      rsi_value_bounds _ _ _ (gains_sum_nonneg prices) (losses_sum_nonneg prices) (by norm_num)⟩
  · exact ⟨[0, 1000000, 999999, 999999, 999999, 999999, 999999, 999999, 999999,
      999999, 999999, 999999, 999999, 999999, 999999], 100000000 / 1000001,
      by norm_num, rsi_bigGain_eval, by norm_num⟩

/-- C9 witness: the range theorem evaluated on a concrete flat 15-price
series (whose RSI takes the `avgLoss = 0` branch). -/
theorem C9_witness :
    ∃ q : ℚ, calculateRSI (List.replicate 15 7) 14 = JsVal.num q ∧ 0 ≤ q ∧ q < 100 :=
  C9_rsi_range.1 (List.replicate 15 7) (by norm_num)

theorem range_map_getD_eq_zipWith (n : Nat) (a b : List ℚ) (ha : a.length = n) (hb : b.length = n) :
    (List.range n).map (fun i => a.getD i 0 - b.getD i 0) =
      List.zipWith (fun x y => x - y) a b := by
  induction n generalizing a b with
  | zero =>
    cases a with
    | nil => cases b with
      | nil => rfl
      | cons y ys => simp at hb
    | cons x xs => simp at ha
  | succ m ih =>
    cases a with
    | nil => simp at ha
    | cons x xs =>
      cases b with
      | nil => simp at hb
      | cons y ys =>
        rw [List.range_succ_eq_map, List.map_cons, List.map_map, List.zipWith_cons_cons]
        refine congrArg₂ List.cons rfl ?_
        rw [← ih xs ys (by simpa using ha) (by simpa using hb)]
        refine List.map_congr_left fun i _ => ?_
        simp [List.getD]

/-- C7: MACD returns the `(0, 0)` sentinel for fewer than 26 prices; with
at least 26 prices its line is the last element of the pointwise
`EMA(series,12) - EMA(series,26)` difference and its signal the last
element of the 9-period EMA of that full difference series. -/
theorem C7_macd (prices : List ℚ) :
    (prices.length < 26 → calculateMACD prices = (0, 0))
    ∧ (26 ≤ prices.length →
        calculateMACD prices =
          ((List.zipWith (fun a b => a - b) (calculateEMA prices 12)
              (calculateEMA prices 26)).getD (prices.length - 1) 0,
            (calculateEMA (List.zipWith (fun a b => a - b) (calculateEMA prices 12)
              (calculateEMA prices 26)) 9).getD (prices.length - 1) 0)) := by
  constructor
  · intro h
    simp only [calculateMACD]
    rw [if_pos h]
  · intro h
    have h12 : (calculateEMA prices 12).length = prices.length := calculateEMA_length _ _
    have h26 : (calculateEMA prices 26).length = prices.length := calculateEMA_length _ _
    simp only [calculateMACD]
    rw [if_neg (by omega)]
    rw [jsSliceFrom_neg_ge _ _ h12.le, jsSliceFrom_neg_ge _ _ h26.le]
    rw [range_map_getD_eq_zipWith prices.length _ _ h12 h26]
    rw [lastElem_eq, lastElem_eq, calculateEMA_length, List.length_zipWith, h12, h26, min_self]

/-- C7 witness: the sentinel on a 3-price series and the long-branch shape
on a constant 26-price series. -/
theorem C7_witness :
    calculateMACD [1, 2, 3] = (0, 0)
    ∧ calculateMACD (List.replicate 26 1) =
        ((List.zipWith (fun a b => a - b) (calculateEMA (List.replicate 26 1) 12)
            (calculateEMA (List.replicate 26 1) 26)).getD 25 0,
          (calculateEMA (List.zipWith (fun a b => a - b) (calculateEMA (List.replicate 26 1) 12)
            (calculateEMA (List.replicate 26 1) 26)) 9).getD 25 0) := by
  refine ⟨(C7_macd [1, 2, 3]).1 (by norm_num), ?_⟩
  have h := (C7_macd (List.replicate 26 1)).2 (by norm_num)
  simpa using h

/-- C4 counterexample: on a flat series of exactly 10 prices the momentum
is `NaN` (the backward slice is empty and its `[0]` is `undefined`), not
the well-defined ratio `1.0` the claim asserts for every series of length
at least `period`. -/
theorem C4_counterexample :
    calculateMomentum (List.replicate 10 1) 10 = JsVal.nan
    ∧ JsVal.nan ≠ JsVal.num 1 := by
  constructor
  · simp only [calculateMomentum]
    rw [if_neg (by norm_num), jsSlice_window_empty _ 10 (by norm_num)]
    cases hh : (jsSliceFrom (List.replicate 10 1) (-1)).head? <;> rfl
  · simp

/-- C4 (amended): momentum is absent below 10 prices; at exactly 10 prices
the reference `prices.slice(-11, -10)[0]` falls off the front of the series
and the result is `NaN`; with at least 11 prices it is the ratio of the
last price to the price 11 positions from the end, which is `1.0` on a
flat series of a nonzero price. -/
theorem C4_momentum :
    (∀ prices : List ℚ, prices.length < 10 → calculateMomentum prices 10 = JsVal.null)
    ∧ (∀ prices : List ℚ, prices.length = 10 → calculateMomentum prices 10 = JsVal.nan)
    ∧ (∀ prices : List ℚ, 11 ≤ prices.length →
        calculateMomentum prices 10 =
          JsVal.num (prices.getD (prices.length - 1) 0 / prices.getD (prices.length - 11) 0))
    ∧ (∀ (n : Nat) (c : ℚ), 11 ≤ n → c ≠ 0 →
        calculateMomentum (List.replicate n c) 10 = JsVal.num 1) := by
  refine ⟨fun prices h => ?_, fun prices h => ?_,
    fun prices h => calculateMomentum_eval prices h, fun n c hn hc => ?_⟩
  · simp only [calculateMomentum]
    rw [if_pos h]
  · simp only [calculateMomentum]
    rw [if_neg (by omega), jsSlice_window_empty _ 10 (by omega)]
    cases hh : (jsSliceFrom prices (-1)).head? <;> rfl
  · rw [calculateMomentum_eval _ (by simpa using hn)]
    have hg : ∀ m, m < n → (List.replicate n c).getD m 0 = c := fun m hm => by
      rw [List.getD_eq_getElem?_getD, List.getElem?_replicate, if_pos hm]
      rfl
    rw [List.length_replicate, hg (n - 1) (by omega), hg (n - 11) (by omega), div_self hc]

/-- C4 witness: the three reachable behaviours at concrete inputs — absent
below 10 prices, the ratio `11/1 = 11` on `[1..11]`, and `1.0` on a flat
12-price series. -/
theorem C4_witness :
    calculateMomentum [1, 2, 3] 10 = JsVal.null
    ∧ calculateMomentum [1, 2, 3, 4, 5, 6, 7, 8, 9, 10, 11] 10 = JsVal.num 11
    ∧ calculateMomentum (List.replicate 12 5) 10 = JsVal.num 1 := by
  refine ⟨C4_momentum.1 [1, 2, 3] (by norm_num), ?_,
    C4_momentum.2.2.2 12 5 (by norm_num) (by norm_num)⟩
  rw [C4_momentum.2.2.1 [1, 2, 3, 4, 5, 6, 7, 8, 9, 10, 11] (by norm_num)]
  norm_num

end Sinais
